import Mathlib

/-!
Verification of the constrained image geometry engine of converter.roga.dev.

This file gives a shallow embedding of the dimension calculator from
`src/lib/converters/image.ts` and of the interactive crop-rectangle logic
from `src/lib/components/ImageCropper.svelte`, and proves (or refutes)
the specified properties about them.

Modelling conventions: JavaScript numbers are rationals, `Math.round x`
is `⌊x + 1/2⌋` (half-up rounding, as for all finite doubles), optional
numeric props are `Option ℚ` with JavaScript truthiness (absent and `0`
are falsy), and the component state fields `cropX, cropY, cropW, cropH`
are kept as rationals that the code only ever sets to rounded
(integer-valued) results.
-/

namespace Converter

/-- JavaScript `Math.round`: half-up rounding, toward positive infinity on ties. -/
def jround (x : ℚ) : ℤ := ⌊x + 1/2⌋

/-- JavaScript `r || 1` applied to an integral rounding result: `0` is falsy and
is replaced by `1`. -/
def jsOr1 (n : ℤ) : ℤ := if n = 0 then 1 else n

/-- JavaScript truthiness of an optional numeric value: `undefined` and `0`
are falsy, every other number is truthy. -/
def truthy : Option ℚ → Bool
  | none => false
  | some v => decide (v ≠ 0)

/-- Result record of `calculateOutputDimensions` in `src/lib/converters/image.ts`:
a plain `{width, height}` pair of JavaScript numbers. -/
structure Dimensions where
  width : ℚ
  height : ℚ
  deriving DecidableEq, Repr

/-- `calculateOutputDimensions` from `src/lib/converters/image.ts` (lines 36-73):
guards degenerate sources with `{1, 1}`, passes the source through when no
constraint is truthy, scales by the single given constraint, and with both
constraints scales by `min(maxWidth/sourceWidth, maxHeight/sourceHeight, 1)`;
each rounded axis is floored to `1` via `|| 1`. -/
def calculateOutputDimensions (sourceWidth sourceHeight : ℚ)
    (maxWidth maxHeight : Option ℚ) : Dimensions :=
  if sourceWidth ≤ 0 ∨ sourceHeight ≤ 0 then ⟨1, 1⟩
  else if truthy maxWidth = false ∧ truthy maxHeight = false then
    ⟨sourceWidth, sourceHeight⟩
  else if truthy maxWidth = true ∧ truthy maxHeight = false then
    let scale := maxWidth.getD 0 / sourceWidth
    ⟨((jsOr1 (jround (sourceWidth * scale)) : ℤ) : ℚ),
     ((jsOr1 (jround (sourceHeight * scale)) : ℤ) : ℚ)⟩
  else if truthy maxWidth = false ∧ truthy maxHeight = true then
    let scale := maxHeight.getD 0 / sourceHeight
    ⟨((jsOr1 (jround (sourceWidth * scale)) : ℤ) : ℚ),
     ((jsOr1 (jround (sourceHeight * scale)) : ℤ) : ℚ)⟩
  else
    let scale := min (min (maxWidth.getD 0 / sourceWidth) (maxHeight.getD 0 / sourceHeight)) 1
    ⟨((jsOr1 (jround (sourceWidth * scale)) : ℤ) : ℚ),
     ((jsOr1 (jround (sourceHeight * scale)) : ℤ) : ℚ)⟩

/-- Drag modes of `ImageCropper.svelte`: move, nw, ne, sw, se. -/
inductive DragMode where
  | move
  | nw
  | ne
  | sw
  | se
  deriving DecidableEq, Repr

/-- The props of `ImageCropper.svelte` that the geometry reads (`src`,
`onConfirm`, `onCancel` are irrelevant to the arithmetic). Defaults mirror
the destructuring defaults `fixedSize = false`, `aspectRatio = null`. -/
structure CropperProps where
  imageWidth : ℚ
  imageHeight : ℚ
  initialWidth : Option ℚ := none
  initialHeight : Option ℚ := none
  fixedSize : Bool := false
  aspectRatio : Option ℚ := none
  deriving DecidableEq, Repr

/-- `MIN_CROP_SIZE = 16` from `ImageCropper.svelte`. -/
def MIN_CROP_SIZE : ℚ := 16

/-- `canResizeCorners = $derived(!fixedSize || aspectRatio !== null)`. -/
def canResizeCorners (p : CropperProps) : Bool :=
  !p.fixedSize || p.aspectRatio.isSome

/-- `hasAspectRatio = $derived(aspectRatio !== null && aspectRatio > 0)`. -/
def hasAspectRatio (p : CropperProps) : Bool :=
  p.aspectRatio.isSome && decide (0 < p.aspectRatio.getD 0)

/-- The committed component state `cropX, cropY, cropW, cropH`. -/
structure CropState where
  x : ℚ
  y : ℚ
  w : ℚ
  h : ℚ
  deriving DecidableEq, Repr

/-- A geometry rectangle `{newX, newY, newW, newH}` as returned by
`computeResizedCrop` (sub-pixel values allowed). -/
structure Rect where
  x : ℚ
  y : ℚ
  w : ℚ
  h : ℚ
  deriving DecidableEq, Repr

/-- The `dragStart` snapshot captured by `startDrag`:
`{ x, y, cropX, cropY, cropW, cropH }` (pointer start plus crop snapshot). -/
structure Snapshot where
  x : ℚ
  y : ℚ
  cropX : ℚ
  cropY : ℚ
  cropW : ℚ
  cropH : ℚ
  deriving DecidableEq, Repr

/-- `computeInitialCrop` from `ImageCropper.svelte` (lines 62-94): fixed-size
branch takes `min` with the image bounds un-rounded; the aspect-ratio branch
fits a ratio-true rectangle into 80% of the image; the free branch takes 80%
of each axis; the position centers the chosen size, rounded. -/
def computeInitialCrop (p : CropperProps) : CropState :=
  let wh : ℚ × ℚ :=
    if p.fixedSize = true ∧ truthy p.initialWidth = true ∧ truthy p.initialHeight = true then
      (min (p.initialWidth.getD 0) p.imageWidth, min (p.initialHeight.getD 0) p.imageHeight)
    else if truthy p.aspectRatio = true ∧ 0 < p.aspectRatio.getD 0 then
      let ar := p.aspectRatio.getD 0
      let maxW := p.imageWidth * (4/5)
      let maxH := p.imageHeight * (4/5)
      if maxW / ar ≤ maxH then
        (((jround maxW : ℤ) : ℚ), ((jround (maxW / ar) : ℤ) : ℚ))
      else
        (((jround (maxH * ar) : ℤ) : ℚ), ((jround maxH : ℤ) : ℚ))
    else
      (((jround (p.imageWidth * (4/5)) : ℤ) : ℚ), ((jround (p.imageHeight * (4/5)) : ℤ) : ℚ))
  { x := ((jround ((p.imageWidth - wh.1) / 2) : ℤ) : ℚ)
    y := ((jround ((p.imageHeight - wh.2) / 2) : ℤ) : ℚ)
    w := wh.1
    h := wh.2 }

/-- `clamp(value, min, max)` from `ImageCropper.svelte`:
`Math.max(min, Math.min(max, value))`. -/
def clamp (value lo hi : ℚ) : ℚ := max lo (min hi value)

/-- The aspect-locked `switch (mode)` block of `computeResizedCrop`
(lines 116-139): `nw`/`se` use the diagonal average `(dx + dy) / 2`,
`ne`/`sw` use `dx` alone; height is derived from the ratio, and the
anchor corner is preserved by recomputing `newX`/`newY`. The `move`
case never reaches this switch and leaves the snapshot unchanged. -/
def rawAspectResize (ds : Snapshot) (ar dx dy : ℚ) (mode : DragMode) : Rect :=
  let diagonalDelta := (dx + dy) / 2
  match mode with
  | DragMode.nw =>
      let newW := ds.cropW - diagonalDelta
      let newH := newW / ar
      ⟨ds.cropX + ds.cropW - newW, ds.cropY + ds.cropH - newH, newW, newH⟩
  | DragMode.ne =>
      let newW := ds.cropW + dx
      let newH := newW / ar
      ⟨ds.cropX, ds.cropY + ds.cropH - newH, newW, newH⟩
  | DragMode.sw =>
      let newW := ds.cropW - dx
      let newH := newW / ar
      ⟨ds.cropX + ds.cropW - newW, ds.cropY, newW, newH⟩
  | DragMode.se =>
      let newW := ds.cropW + diagonalDelta
      ⟨ds.cropX, ds.cropY, newW, newW / ar⟩
  | DragMode.move => ⟨ds.cropX, ds.cropY, ds.cropW, ds.cropH⟩

/-- The free-form `switch (mode)` block of `computeResizedCrop`
(lines 141-162): each corner moves only its two adjacent edges. -/
def rawFreeResize (ds : Snapshot) (dx dy : ℚ) (mode : DragMode) : Rect :=
  match mode with
  | DragMode.nw => ⟨ds.cropX + dx, ds.cropY + dy, ds.cropW - dx, ds.cropH - dy⟩
  | DragMode.ne => ⟨ds.cropX, ds.cropY + dy, ds.cropW + dx, ds.cropH - dy⟩
  | DragMode.sw => ⟨ds.cropX + dx, ds.cropY, ds.cropW - dx, ds.cropH + dy⟩
  | DragMode.se => ⟨ds.cropX, ds.cropY, ds.cropW + dx, ds.cropH + dy⟩
  | DragMode.move => ⟨ds.cropX, ds.cropY, ds.cropW, ds.cropH⟩

/-- The `// Enforce minimum size` block of `computeResizedCrop`
(lines 165-179): width first (moving `newX` for left-edge corners and
re-deriving the height under an aspect lock), then height symmetrically. -/
def enforceMin (hasAR : Bool) (ar : ℚ) (ds : Snapshot) (mode : DragMode) (r : Rect) : Rect :=
  let r1 : Rect :=
    if r.w < MIN_CROP_SIZE then
      ⟨if mode = DragMode.nw ∨ mode = DragMode.sw then ds.cropX + ds.cropW - MIN_CROP_SIZE
        else r.x,
       r.y,
       MIN_CROP_SIZE,
       if hasAR = true ∧ ar ≠ 0 then MIN_CROP_SIZE / ar else r.h⟩
    else r
  if r1.h < MIN_CROP_SIZE then
    ⟨r1.x,
     if mode = DragMode.nw ∨ mode = DragMode.ne then ds.cropY + ds.cropH - MIN_CROP_SIZE
      else r1.y,
     if hasAR = true ∧ ar ≠ 0 then MIN_CROP_SIZE * ar else r1.w,
     MIN_CROP_SIZE⟩
  else r1

/-- `if (newX < 0)` from the `// Constrain to image bounds` block
(lines 182-186): absorb the overflow into the width and re-derive the
height under an aspect lock. -/
def boundLeft (hasAR : Bool) (ar : ℚ) (r : Rect) : Rect :=
  if r.x < 0 then
    let w := r.w + r.x
    ⟨0, r.y, w, if hasAR = true ∧ ar ≠ 0 then w / ar else r.h⟩
  else r

/-- `if (newY < 0)` (lines 187-191). -/
def boundTop (hasAR : Bool) (ar : ℚ) (r : Rect) : Rect :=
  if r.y < 0 then
    let h := r.h + r.y
    ⟨r.x, 0, if hasAR = true ∧ ar ≠ 0 then h * ar else r.w, h⟩
  else r

/-- `if (newX + newW > imageWidth)` (lines 192-195). -/
def boundRight (iw : ℚ) (hasAR : Bool) (ar : ℚ) (r : Rect) : Rect :=
  if iw < r.x + r.w then
    let w := iw - r.x
    ⟨r.x, r.y, w, if hasAR = true ∧ ar ≠ 0 then w / ar else r.h⟩
  else r

/-- `if (newY + newH > imageHeight)` (lines 196-199). -/
def boundBottom (ih : ℚ) (hasAR : Bool) (ar : ℚ) (r : Rect) : Rect :=
  if ih < r.y + r.h then
    let h := ih - r.y
    ⟨r.x, r.y, if hasAR = true ∧ ar ≠ 0 then h * ar else r.w, h⟩
  else r

/-- `computeResizedCrop(dx, dy, mode)` from `ImageCropper.svelte`
(lines 110-202): the mode switch (aspect-locked when
`hasAspectRatio && aspectRatio`), then minimum-size enforcement, then the
four sequential image-boundary constraints in source order. -/
def computeResizedCrop (p : CropperProps) (ds : Snapshot) (dx dy : ℚ) (mode : DragMode) : Rect :=
  let ar := p.aspectRatio.getD 0
  let hasAR := hasAspectRatio p
  let raw :=
    if hasAR = true ∧ ar ≠ 0 then rawAspectResize ds ar dx dy mode
    else rawFreeResize ds dx dy mode
  boundBottom p.imageHeight hasAR ar
    (boundRight p.imageWidth hasAR ar
      (boundTop hasAR ar
        (boundLeft hasAR ar
          (enforceMin hasAR ar ds mode raw))))

/-- `handlePointerMove(e)` from `ImageCropper.svelte` (lines 204-223), for an
active drag session: pointer deltas are converted to image space via `scale`;
`move` translates and clamps the rounded position with size untouched; corner
modes are ignored unless `canResizeCorners`, and otherwise commit the rounded,
`MIN_CROP_SIZE`-floored result of `computeResizedCrop`. -/
def handlePointerMove (p : CropperProps) (scale : ℚ) (ds : Snapshot) (mode : DragMode)
    (clientX clientY : ℚ) (s : CropState) : CropState :=
  let dx := (clientX - ds.x) / scale
  let dy := (clientY - ds.y) / scale
  match mode with
  | DragMode.move =>
      { x := clamp ((jround (ds.cropX + dx) : ℤ) : ℚ) 0 (p.imageWidth - s.w)
        y := clamp ((jround (ds.cropY + dy) : ℤ) : ℚ) 0 (p.imageHeight - s.h)
        w := s.w
        h := s.h }
  | m =>
      if canResizeCorners p = true then
        let r := computeResizedCrop p ds dx dy m
        { x := ((jround r.x : ℤ) : ℚ)
          y := ((jround r.y : ℤ) : ℚ)
          w := ((jround (max MIN_CROP_SIZE r.w) : ℤ) : ℚ)
          h := ((jround (max MIN_CROP_SIZE r.h) : ℤ) : ℚ) }
      else s

/-- `confirm()` (lines 241-243): the rectangle handed to `onConfirm` is exactly
the current committed state `{x: cropX, y: cropY, width: cropW, height: cropH}`. -/
def confirmedRect (s : CropState) : Rect := ⟨s.x, s.y, s.w, s.h⟩

/-- One pointer-move event delivered during a single drag session whose mode,
snapshot and display scale are fixed: the event carries only the pointer
client coordinates. -/
def dragSessionStep (p : CropperProps) (scale : ℚ) (ds : Snapshot) (mode : DragMode)
    (s : CropState) (e : ℚ × ℚ) : CropState :=
  handlePointerMove p scale ds mode e.1 e.2 s

/-- A pointer-move event together with the session data (display scale,
drag-start snapshot, drag mode) under which it is delivered; lets whole
multi-session event histories be folded over the component state. -/
structure PointerMoveEvent where
  scale : ℚ
  ds : Snapshot
  mode : DragMode
  clientX : ℚ
  clientY : ℚ
  deriving DecidableEq, Repr

/-- Deliver one `PointerMoveEvent` to the component state. -/
def cropSessionStep (p : CropperProps) (s : CropState) (e : PointerMoveEvent) : CropState :=
  handlePointerMove p e.scale e.ds e.mode e.clientX e.clientY s

end Converter

/-! ## Evaluation helpers for `jround` and `jsOr1` -/

namespace Converter

/-- Evaluate `jround` from explicit floor bounds. -/
lemma jround_eval {x : ℚ} {n : ℤ} (h1 : (n : ℚ) ≤ x + 1/2) (h2 : x + 1/2 < (n : ℚ) + 1) :
    jround x = n := by
  unfold jround
  rw [Int.floor_eq_iff]
  exact ⟨h1, by exact_mod_cast h2⟩

/-- Rounding an integer-valued rational is the identity. -/
lemma jround_intCast (n : ℤ) : jround ((n : ℚ)) = n :=
  jround_eval (by norm_num) (by norm_num)

/-- `jround` is monotone. -/
lemma jround_mono {q r : ℚ} (h : q ≤ r) : jround q ≤ jround r := by
  unfold jround
  exact Int.floor_le_floor (by linarith)

/-- `jsOr1` never exceeds a positive upper bound of its argument. -/
lemma jsOr1_le {n m : ℤ} (hm : 0 < m) (h : n ≤ m) : jsOr1 n ≤ m := by
  unfold jsOr1
  split_ifs with h0
  · omega
  · exact h

end Converter

/-! ## Claims -/

namespace Converter

/-- C7: for every input with `sourceWidth ≤ 0` or `sourceHeight ≤ 0`,
`calculateOutputDimensions` returns `{width: 1, height: 1}` — the degenerate
guard fires before any division by a source dimension. -/
theorem c7_degenerate_floor (sw sh : ℚ) (mw mh : Option ℚ) (h : sw ≤ 0 ∨ sh ≤ 0) :
    calculateOutputDimensions sw sh mw mh = ⟨1, 1⟩ := by
  unfold calculateOutputDimensions
  rw [if_pos h]

/-- Witness for C7 at the two inputs named by the claim:
`computeOutputDimensions(0, 100)` and `computeOutputDimensions(-5, -5)`. -/
theorem c7_degenerate_floor_witness :
    calculateOutputDimensions 0 100 none none = ⟨1, 1⟩ ∧
    calculateOutputDimensions (-5) (-5) none none = ⟨1, 1⟩ :=
  ⟨c7_degenerate_floor 0 100 none none (Or.inl le_rfl),
   c7_degenerate_floor (-5) (-5) none none (Or.inl (by norm_num))⟩

/-- C8: in an aspect-locked `se` resize, the raw width before min-size and
boundary clamping is `snapshot.width + (dx + dy) / 2`, the raw height is that
width divided by the ratio, and at `dx = 100, dy = 0` the width delta is
exactly `50`. -/
theorem c8_se_diagonal_average (ds : Snapshot) (ar dx dy : ℚ) :
    (rawAspectResize ds ar dx dy DragMode.se).w = ds.cropW + (dx + dy) / 2 ∧
    (rawAspectResize ds ar dx dy DragMode.se).h = (ds.cropW + (dx + dy) / 2) / ar ∧
    (rawAspectResize ds ar 100 0 DragMode.se).w = ds.cropW + 50 := by
  refine ⟨rfl, rfl, ?_⟩
  show ds.cropW + (100 + 0) / 2 = ds.cropW + 50
  norm_num

/-- C10: in an aspect-locked resize, `ne` and `sw` derive the raw width from
the horizontal delta alone (`+dx` resp. `-dx`), ignoring `dy` entirely, so a
purely vertical pointer movement leaves the raw rectangle unchanged for a
ratio-consistent snapshot, while `nw` and `se` use the diagonal average. -/
theorem c10_ne_sw_horizontal_only (ds : Snapshot) (ar dx dy dy' : ℚ)
    (hcons : ds.cropH = ds.cropW / ar) :
    rawAspectResize ds ar dx dy DragMode.ne = rawAspectResize ds ar dx dy' DragMode.ne ∧
    rawAspectResize ds ar dx dy DragMode.sw = rawAspectResize ds ar dx dy' DragMode.sw ∧
    (rawAspectResize ds ar dx dy DragMode.ne).w = ds.cropW + dx ∧
    (rawAspectResize ds ar dx dy DragMode.sw).w = ds.cropW - dx ∧
    (rawAspectResize ds ar dx dy DragMode.nw).w = ds.cropW - (dx + dy) / 2 ∧
    (rawAspectResize ds ar dx dy DragMode.se).w = ds.cropW + (dx + dy) / 2 ∧
    rawAspectResize ds ar 0 dy DragMode.ne = ⟨ds.cropX, ds.cropY, ds.cropW, ds.cropH⟩ ∧
    rawAspectResize ds ar 0 dy DragMode.sw = ⟨ds.cropX, ds.cropY, ds.cropW, ds.cropH⟩ := by
  refine ⟨rfl, rfl, rfl, rfl, rfl, rfl, ?_, ?_⟩
  · show Rect.mk ds.cropX (ds.cropY + ds.cropH - (ds.cropW + 0) / ar) (ds.cropW + 0)
        ((ds.cropW + 0) / ar) = _
    rw [add_zero, ← hcons]
    simp [Rect.mk.injEq]
  · show Rect.mk (ds.cropX + ds.cropW - (ds.cropW - 0)) ds.cropY (ds.cropW - 0)
        ((ds.cropW - 0) / ar) = _
    rw [sub_zero, ← hcons]
    simp [Rect.mk.injEq]

/-- Witness for C10 at a concrete ratio-consistent snapshot. -/
theorem c10_ne_sw_horizontal_only_witness :
    rawAspectResize ⟨0, 0, 5, 7, 32, 16⟩ 2 0 4 DragMode.ne = ⟨5, 7, 32, 16⟩ :=
  (c10_ne_sw_horizontal_only ⟨0, 0, 5, 7, 32, 16⟩ 2 0 4 9 (by norm_num)).2.2.2.2.2.2.1

end Converter

namespace Converter

/-- C2 (counterexample): with only `maxWidth` given, the scale
`maxWidth / sourceWidth` is not capped at `1`, so the calculator upscales:
sources `100 × 100` with `maxWidth = 200` yield `200 × 200 > 100 × 100`. -/
theorem c2_counterexample_upscale_single_max :
    calculateOutputDimensions 100 100 (some 200) none = ⟨200, 200⟩ ∧
    ¬((200 : ℚ) ≤ 100) := by
  constructor
  · norm_num [calculateOutputDimensions, truthy, jsOr1, jround, Int.floor_eq_iff]
  · norm_num

/-- C2 (amended): with BOTH `maxWidth` and `maxHeight` provided (positive) and
positive integer sources, `calculateOutputDimensions` never upscales, and when
both constraints are at least the source dimensions it returns exactly
`{sourceWidth, sourceHeight}`. -/
theorem c2_no_upscale_both_bounds (sw sh : ℤ) (mw mh : ℚ)
    (hsw : 0 < sw) (hsh : 0 < sh) (hmw : 0 < mw) (hmh : 0 < mh) :
    (calculateOutputDimensions (sw : ℚ) (sh : ℚ) (some mw) (some mh)).width ≤ (sw : ℚ) ∧
    (calculateOutputDimensions (sw : ℚ) (sh : ℚ) (some mw) (some mh)).height ≤ (sh : ℚ) ∧
    ((sw : ℚ) ≤ mw → (sh : ℚ) ≤ mh →
      calculateOutputDimensions (sw : ℚ) (sh : ℚ) (some mw) (some mh)
        = ⟨((sw : ℤ) : ℚ), ((sh : ℤ) : ℚ)⟩) := by
  have hswQ : (0 : ℚ) < (sw : ℚ) := by exact_mod_cast hsw
  have hshQ : (0 : ℚ) < (sh : ℚ) := by exact_mod_cast hsh
  have t1 : truthy (some mw) = true := by
    simp only [truthy, decide_eq_true_eq]
    exact ne_of_gt hmw
  have t2 : truthy (some mh) = true := by
    simp only [truthy, decide_eq_true_eq]
    exact ne_of_gt hmh
  have hguard : ¬((sw : ℚ) ≤ 0 ∨ (sh : ℚ) ≤ 0) := by
    push_neg
    exact ⟨hswQ, hshQ⟩
  unfold calculateOutputDimensions
  rw [if_neg hguard, if_neg (by simp [t1]), if_neg (by simp [t2]), if_neg (by simp [t1])]
  simp only [Option.getD_some]
  have hle1 : min (min (mw / (sw : ℚ)) (mh / (sh : ℚ))) 1 ≤ 1 := min_le_right _ _
  have hnn : (0 : ℚ) ≤ min (min (mw / (sw : ℚ)) (mh / (sh : ℚ))) 1 :=
    le_min (le_min (by positivity) (by positivity)) (by norm_num)
  have bw : ((jsOr1 (jround ((sw : ℚ) * min (min (mw / (sw : ℚ)) (mh / (sh : ℚ))) 1)) : ℤ) : ℚ)
      ≤ (sw : ℚ) := by
    have h1 : (sw : ℚ) * min (min (mw / (sw : ℚ)) (mh / (sh : ℚ))) 1 ≤ (sw : ℚ) :=
      mul_le_of_le_one_right (le_of_lt hswQ) hle1
    have h2 : jround ((sw : ℚ) * min (min (mw / (sw : ℚ)) (mh / (sh : ℚ))) 1) ≤ sw := by
      have := jround_mono h1
      rwa [jround_intCast] at this
    exact_mod_cast jsOr1_le hsw h2
  have bh : ((jsOr1 (jround ((sh : ℚ) * min (min (mw / (sw : ℚ)) (mh / (sh : ℚ))) 1)) : ℤ) : ℚ)
      ≤ (sh : ℚ) := by
    have h1 : (sh : ℚ) * min (min (mw / (sw : ℚ)) (mh / (sh : ℚ))) 1 ≤ (sh : ℚ) :=
      mul_le_of_le_one_right (le_of_lt hshQ) hle1
    have h2 : jround ((sh : ℚ) * min (min (mw / (sw : ℚ)) (mh / (sh : ℚ))) 1) ≤ sh := by
      have := jround_mono h1
      rwa [jround_intCast] at this
    exact_mod_cast jsOr1_le hsh h2
  refine ⟨bw, bh, ?_⟩
  intro hw hh
  have escale : min (min (mw / (sw : ℚ)) (mh / (sh : ℚ))) 1 = 1 := by
    have e1 : 1 ≤ mw / (sw : ℚ) := (one_le_div hswQ).mpr hw
    have e2 : 1 ≤ mh / (sh : ℚ) := (one_le_div hshQ).mpr hh
    exact le_antisymm hle1 (le_min (le_min e1 e2) le_rfl)
  rw [escale, mul_one, mul_one, jround_intCast, jround_intCast]
  have jw : jsOr1 sw = sw := by
    unfold jsOr1
    rw [if_neg (by omega)]
  have jh : jsOr1 sh = sh := by
    unfold jsOr1
    rw [if_neg (by omega)]
  rw [jw, jh]

/-- Witness for C2 (amended) at the spec example `1000 × 500` with maxes
`400 × 300`, and at a pass-through input `300 × 200` with the same maxes. -/
theorem c2_no_upscale_both_bounds_witness :
    (calculateOutputDimensions ((1000 : ℤ) : ℚ) ((500 : ℤ) : ℚ) (some 400) (some 300)).width
      ≤ ((1000 : ℤ) : ℚ) ∧
    calculateOutputDimensions ((300 : ℤ) : ℚ) ((200 : ℤ) : ℚ) (some 400) (some 300)
      = ⟨((300 : ℤ) : ℚ), ((200 : ℤ) : ℚ)⟩ :=
  ⟨(c2_no_upscale_both_bounds 1000 500 400 300 (by norm_num) (by norm_num) (by norm_num)
      (by norm_num)).1,
   (c2_no_upscale_both_bounds 300 200 400 300 (by norm_num) (by norm_num) (by norm_num)
      (by norm_num)).2.2 (by norm_num) (by norm_num)⟩

end Converter

namespace Converter

/-- C5 (counterexample): the committed position is the clamp of the ROUNDED
translation, not of the raw translation: at snapshot `x = 0`, `dx = 1/2`, the
code commits `x = 1`, while the claimed formula
`clamp(snapshot.x + dx, 0, imageWidth - width)` gives `1/2`. -/
theorem c5_counterexample_unrounded_formula :
    (handlePointerMove ⟨1000, 1000, none, none, false, none⟩ 1 ⟨0, 0, 0, 0, 200, 200⟩
        DragMode.move (1/2) 0 ⟨0, 0, 200, 200⟩).x = 1 ∧
    clamp ((0 : ℚ) + 1/2) 0 (1000 - 200) = 1/2 ∧
    ((1 : ℚ) ≠ 1/2) := by
  refine ⟨?_, ?_, by norm_num⟩
  · show clamp ((jround ((0 : ℚ) + (1/2 - 0) / 1) : ℤ) : ℚ) 0 (1000 - 200) = 1
    rw [show jround ((0 : ℚ) + (1/2 - 0) / 1) = 1 from jround_eval (by norm_num) (by norm_num)]
    unfold clamp
    norm_num
  · unfold clamp
    norm_num

/-- C5 (amended): in move mode every pointer-move leaves the width and height
unchanged and sets the position to the clamp of the ROUNDED translation,
`clamp(round(snapshot.x + dx), 0, imageWidth - width)` per axis; for image
`1000 × 1000`, crop `{0, 0, 200, 200}` and `dx = -50` the resulting `x` is `0`. -/
theorem c5_move_translate_clamp (p : CropperProps) (sc : ℚ) (ds : Snapshot)
    (cx cy : ℚ) (s : CropState) :
    (handlePointerMove p sc ds DragMode.move cx cy s).w = s.w ∧
    (handlePointerMove p sc ds DragMode.move cx cy s).h = s.h ∧
    (handlePointerMove p sc ds DragMode.move cx cy s).x
      = clamp ((jround (ds.cropX + (cx - ds.x) / sc) : ℤ) : ℚ) 0 (p.imageWidth - s.w) ∧
    (handlePointerMove p sc ds DragMode.move cx cy s).y
      = clamp ((jround (ds.cropY + (cy - ds.y) / sc) : ℤ) : ℚ) 0 (p.imageHeight - s.h) ∧
    (handlePointerMove ⟨1000, 1000, none, none, false, none⟩ 1 ⟨0, 0, 0, 0, 200, 200⟩
        DragMode.move (-50) 0 ⟨0, 0, 200, 200⟩).x = 0 := by
  refine ⟨rfl, rfl, rfl, rfl, ?_⟩
  show clamp ((jround ((0 : ℚ) + (-50 - 0) / 1) : ℤ) : ℚ) 0 (1000 - 200) = 0
  rw [show jround ((0 : ℚ) + (-50 - 0) / 1) = -50 from jround_eval (by norm_num) (by norm_num)]
  unfold clamp
  norm_num

/-- C6: initial crop placement in free mode (`fixedSize` false, no aspect
ratio) takes 80% of each axis, rounded, and centers it:
`w = round(0.8·imageWidth)`, `h = round(0.8·imageHeight)`,
`x = round((imageWidth - w)/2)`, `y = round((imageHeight - h)/2)`. -/
theorem c6_initial_crop_free_mode (p : CropperProps)
    (hfs : p.fixedSize = false) (har : p.aspectRatio = none)
    (hw : 0 < p.imageWidth) (hh : 0 < p.imageHeight) :
    computeInitialCrop p =
      { x := ((jround ((p.imageWidth - ((jround (p.imageWidth * (4/5)) : ℤ) : ℚ)) / 2) : ℤ) : ℚ)
        y := ((jround ((p.imageHeight - ((jround (p.imageHeight * (4/5)) : ℤ) : ℚ)) / 2) : ℤ) : ℚ)
        w := ((jround (p.imageWidth * (4/5)) : ℤ) : ℚ)
        h := ((jround (p.imageHeight * (4/5)) : ℤ) : ℚ) } := by
  unfold computeInitialCrop
  rw [hfs, har]
  simp [truthy]

/-- Witness for C6 at the spec example: a `1000 × 800` image yields
`{x: 100, y: 80, width: 800, height: 640}`. -/
theorem c6_initial_crop_free_mode_witness :
    computeInitialCrop ⟨1000, 800, none, none, false, none⟩ = ⟨100, 80, 800, 640⟩ := by
  have h := c6_initial_crop_free_mode ⟨1000, 800, none, none, false, none⟩ rfl rfl
    (by norm_num) (by norm_num)
  rw [h]
  rw [show jround ((1000 : ℚ) * (4/5)) = 800 from jround_eval (by norm_num) (by norm_num),
    show jround ((800 : ℚ) * (4/5)) = 640 from jround_eval (by norm_num) (by norm_num)]
  rw [show jround (((1000 : ℚ) - ((800 : ℤ) : ℚ)) / 2) = 100 from
      jround_eval (by norm_num) (by norm_num),
    show jround (((800 : ℚ) - ((640 : ℤ) : ℚ)) / 2) = 80 from
      jround_eval (by norm_num) (by norm_num)]
  norm_num [CropState.mk.injEq]

end Converter

namespace Converter

/-- Move-mode pointer moves never change the committed width or height. -/
lemma handlePointerMove_move_size (p : CropperProps) (sc : ℚ) (ds : Snapshot)
    (cx cy : ℚ) (s : CropState) :
    (handlePointerMove p sc ds DragMode.move cx cy s).w = s.w ∧
    (handlePointerMove p sc ds DragMode.move cx cy s).h = s.h :=
  ⟨rfl, rfl⟩

/-- A whole fold of move-mode events preserves the committed size. -/
lemma foldl_move_size (p : CropperProps) (sc : ℚ) (ds : Snapshot) :
    ∀ (l : List (ℚ × ℚ)) (s : CropState),
      (List.foldl (dragSessionStep p sc ds DragMode.move) s l).w = s.w ∧
      (List.foldl (dragSessionStep p sc ds DragMode.move) s l).h = s.h := by
  intro l
  induction l with
  | nil => intro s; exact ⟨rfl, rfl⟩
  | cons a t ih =>
    intro s
    rw [List.foldl_cons]
    exact ⟨(ih _).1.trans rfl, (ih _).2.trans rfl⟩

/-- With corner resizing disabled, a corner pointer-move is ignored entirely. -/
lemma handlePointerMove_corner_disabled (p : CropperProps) (sc : ℚ) (ds : Snapshot)
    (mode : DragMode) (hmode : mode ≠ DragMode.move) (hc : canResizeCorners p = false)
    (cx cy : ℚ) (s : CropState) :
    handlePointerMove p sc ds mode cx cy s = s := by
  cases mode
  case move => exact absurd rfl hmode
  all_goals {
    simp only [handlePointerMove]
    rw [if_neg (by rw [hc]; exact Bool.false_ne_true)]
  }

/-- With corner resizing disabled, folding corner pointer-moves is the identity. -/
lemma foldl_corner_disabled (p : CropperProps) (sc : ℚ) (ds : Snapshot)
    (mode : DragMode) (hmode : mode ≠ DragMode.move) (hc : canResizeCorners p = false) :
    ∀ (t : List (ℚ × ℚ)) (s : CropState),
      List.foldl (dragSessionStep p sc ds mode) s t = s := by
  intro t
  induction t with
  | nil => intro s; rfl
  | cons a u ih =>
    intro s
    rw [List.foldl_cons]
    rw [show dragSessionStep p sc ds mode s a = s from
      handlePointerMove_corner_disabled p sc ds mode hmode hc a.1 a.2 s]
    exact ih s

/-- C4: pointer-move processing is history-independent: with the session data
(drag-start snapshot, mode, image dimensions, display scale) fixed, folding any
event sequence followed by a final event produces exactly the state that
processing only the final event from the original state produces. -/
theorem c4_pointer_move_history_independent (p : CropperProps) (sc : ℚ) (ds : Snapshot)
    (mode : DragMode) (s0 : CropState) (l : List (ℚ × ℚ)) (e : ℚ × ℚ) :
    List.foldl (dragSessionStep p sc ds mode) s0 (l ++ [e])
      = dragSessionStep p sc ds mode s0 e := by
  rw [List.foldl_append, List.foldl_cons, List.foldl_nil]
  cases mode
  case move =>
    have h1 := (foldl_move_size p sc ds l s0).1
    have h2 := (foldl_move_size p sc ds l s0).2
    show handlePointerMove _ _ _ _ _ _ _ = handlePointerMove _ _ _ _ _ _ _
    simp only [handlePointerMove]
    rw [h1, h2]
  all_goals {
    by_cases hc : canResizeCorners p = true
    · show handlePointerMove _ _ _ _ _ _ _ = handlePointerMove _ _ _ _ _ _ _
      simp only [handlePointerMove]
      rw [if_pos hc, if_pos hc]
    · rw [foldl_corner_disabled p sc ds _ (by decide) (Bool.not_eq_true _ |>.mp hc) l s0]
  }

end Converter

namespace Converter

/-- With corner resizing disabled, no pointer-move of any session can change
the committed crop size. -/
lemma cropSessionStep_size_disabled (p : CropperProps) (hc : canResizeCorners p = false)
    (s : CropState) (e : PointerMoveEvent) :
    (cropSessionStep p s e).w = s.w ∧ (cropSessionStep p s e).h = s.h := by
  by_cases hm : e.mode = DragMode.move
  · unfold cropSessionStep
    rw [hm]
    exact ⟨rfl, rfl⟩
  · unfold cropSessionStep
    rw [handlePointerMove_corner_disabled p e.scale e.ds e.mode hm hc e.clientX e.clientY s]
    exact ⟨rfl, rfl⟩

/-- With corner resizing disabled, folding any event history preserves the size. -/
lemma foldl_session_size_disabled (p : CropperProps) (hc : canResizeCorners p = false) :
    ∀ (evs : List PointerMoveEvent) (s : CropState),
      (List.foldl (cropSessionStep p) s evs).w = s.w ∧
      (List.foldl (cropSessionStep p) s evs).h = s.h := by
  intro evs
  induction evs with
  | nil => intro s; exact ⟨rfl, rfl⟩
  | cons a t ih =>
    intro s
    rw [List.foldl_cons]
    exact ⟨(ih _).1.trans (cropSessionStep_size_disabled p hc s a).1,
      (ih _).2.trans (cropSessionStep_size_disabled p hc s a).2⟩

/-- C9: when `fixedSize` is true and `aspectRatio` is null (with truthy initial
dimensions), corner resizing is disabled, so the crop size starts at
`min(initialWidth, imageWidth) × min(initialHeight, imageHeight)` and is
preserved by every pointer-move of every session, through `confirm()`. -/
theorem c9_fixed_size_locks_dimensions (p : CropperProps) (a b : ℚ)
    (hfs : p.fixedSize = true) (har : p.aspectRatio = none)
    (hiw : p.initialWidth = some a) (hih : p.initialHeight = some b)
    (ha : a ≠ 0) (hb : b ≠ 0) :
    (computeInitialCrop p).w = min a p.imageWidth ∧
    (computeInitialCrop p).h = min b p.imageHeight ∧
    ∀ evs : List PointerMoveEvent,
      (confirmedRect (List.foldl (cropSessionStep p) (computeInitialCrop p) evs)).w
        = min a p.imageWidth ∧
      (confirmedRect (List.foldl (cropSessionStep p) (computeInitialCrop p) evs)).h
        = min b p.imageHeight := by
  have hc : canResizeCorners p = false := by
    unfold canResizeCorners
    rw [hfs, har]
    rfl
  have hinit : (computeInitialCrop p).w = min a p.imageWidth ∧
      (computeInitialCrop p).h = min b p.imageHeight := by
    unfold computeInitialCrop
    rw [hfs, hiw, hih]
    simp [truthy, ha, hb]
  refine ⟨hinit.1, hinit.2, ?_⟩
  intro evs
  have hfold := foldl_session_size_disabled p hc evs (computeInitialCrop p)
  exact ⟨hfold.1.trans hinit.1, hfold.2.trans hinit.2⟩

/-- Witness for C9: a `1000 × 1000` image with fixed size `300 × 200`, one
(ignored) corner drag event and one move event; the confirmed size is still
`300 × 200`. -/
theorem c9_fixed_size_locks_dimensions_witness :
    (confirmedRect (List.foldl
        (cropSessionStep ⟨1000, 1000, some 300, some 200, true, none⟩)
        (computeInitialCrop ⟨1000, 1000, some 300, some 200, true, none⟩)
        [⟨1, ⟨0, 0, 350, 400, 300, 200⟩, DragMode.se, 77, 99⟩,
         ⟨1, ⟨5, 5, 350, 400, 300, 200⟩, DragMode.move, -1000, -1000⟩])).w = 300 ∧
    (confirmedRect (List.foldl
        (cropSessionStep ⟨1000, 1000, some 300, some 200, true, none⟩)
        (computeInitialCrop ⟨1000, 1000, some 300, some 200, true, none⟩)
        [⟨1, ⟨0, 0, 350, 400, 300, 200⟩, DragMode.se, 77, 99⟩,
         ⟨1, ⟨5, 5, 350, 400, 300, 200⟩, DragMode.move, -1000, -1000⟩])).h = 200 := by
  have h := c9_fixed_size_locks_dimensions ⟨1000, 1000, some 300, some 200, true, none⟩
    300 200 rfl rfl rfl rfl (by norm_num) (by norm_num)
  have h2 := h.2.2 [⟨1, ⟨0, 0, 350, 400, 300, 200⟩, DragMode.se, 77, 99⟩,
    ⟨1, ⟨5, 5, 350, 400, 300, 200⟩, DragMode.move, -1000, -1000⟩]
  exact ⟨h2.1.trans (by norm_num), h2.2.trans (by norm_num)⟩

end Converter

namespace Converter

/-- Cast form of `jround_eval`, with explicit arguments. -/
lemma jround_cast_eval (x : ℚ) (n : ℤ) (h1 : (n : ℚ) ≤ x + 1/2)
    (h2 : x + 1/2 < (n : ℚ) + 1) : ((jround x : ℤ) : ℚ) = (n : ℚ) := by
  rw [jround_eval h1 h2]

/-- The aspect-locked mode switch always emits a ratio-true rectangle. -/
lemma ratio_rawAspect (ds : Snapshot) (ar dx dy : ℚ) (mode : DragMode)
    (hmode : mode ≠ DragMode.move) :
    (rawAspectResize ds ar dx dy mode).h = (rawAspectResize ds ar dx dy mode).w / ar := by
  cases mode
  case move => exact absurd rfl hmode
  all_goals rfl

/-- Minimum-size enforcement preserves the aspect invariant. -/
lemma ratio_enforceMin (ar : ℚ) (har : ar ≠ 0) (ds : Snapshot) (mode : DragMode) (r : Rect)
    (h : r.h = r.w / ar) :
    (enforceMin true ar ds mode r).h = (enforceMin true ar ds mode r).w / ar := by
  unfold enforceMin
  simp only [true_and, ne_eq, har, not_false_eq_true, if_true, eq_self_iff_true]
  split_ifs <;> first
    | rfl
    | exact h
    | (field_simp)

/-- The left-edge boundary fix preserves the aspect invariant. -/
lemma ratio_boundLeft (ar : ℚ) (har : ar ≠ 0) (r : Rect) (h : r.h = r.w / ar) :
    (boundLeft true ar r).h = (boundLeft true ar r).w / ar := by
  unfold boundLeft
  simp only [true_and, ne_eq, har, not_false_eq_true, if_true, eq_self_iff_true]
  split_ifs <;> first
    | rfl
    | exact h
    | (field_simp)

/-- The top-edge boundary fix preserves the aspect invariant. -/
lemma ratio_boundTop (ar : ℚ) (har : ar ≠ 0) (r : Rect) (h : r.h = r.w / ar) :
    (boundTop true ar r).h = (boundTop true ar r).w / ar := by
  unfold boundTop
  simp only [true_and, ne_eq, har, not_false_eq_true, if_true, eq_self_iff_true]
  split_ifs <;> first
    | rfl
    | exact h
    | (field_simp)

/-- The right-edge boundary fix preserves the aspect invariant. -/
lemma ratio_boundRight (iw : ℚ) (ar : ℚ) (har : ar ≠ 0) (r : Rect) (h : r.h = r.w / ar) :
    (boundRight iw true ar r).h = (boundRight iw true ar r).w / ar := by
  unfold boundRight
  simp only [true_and, ne_eq, har, not_false_eq_true, if_true, eq_self_iff_true]
  split_ifs <;> first
    | rfl
    | exact h
    | (field_simp)

/-- The bottom-edge boundary fix preserves the aspect invariant. -/
lemma ratio_boundBottom (ih : ℚ) (ar : ℚ) (har : ar ≠ 0) (r : Rect) (h : r.h = r.w / ar) :
    (boundBottom ih true ar r).h = (boundBottom ih true ar r).w / ar := by
  unfold boundBottom
  simp only [true_and, ne_eq, har, not_false_eq_true, if_true, eq_self_iff_true]
  split_ifs <;> first
    | rfl
    | exact h
    | (field_simp)

/-- C3 (amended): during an aspect-locked drag every corner-mode rectangle
computed by `computeResizedCrop` satisfies `height = width / ratio` EXACTLY
in the un-rounded geometry; the integer rounding applied at commit time then
perturbs the ratio by up to a pixel (see the counterexample). -/
theorem c3_aspect_ratio_exact_before_rounding (p : CropperProps) (ds : Snapshot)
    (dx dy : ℚ) (mode : DragMode)
    (hAR : hasAspectRatio p = true) (hmode : mode ≠ DragMode.move) :
    (computeResizedCrop p ds dx dy mode).h
      = (computeResizedCrop p ds dx dy mode).w / p.aspectRatio.getD 0 := by
  have har : p.aspectRatio.getD 0 ≠ 0 := by
    unfold hasAspectRatio at hAR
    simp only [Bool.and_eq_true, decide_eq_true_eq] at hAR
    exact ne_of_gt hAR.2
  simp only [computeResizedCrop]
  rw [hAR, if_pos ⟨rfl, har⟩]
  exact ratio_boundBottom p.imageHeight _ har _
    (ratio_boundRight p.imageWidth _ har _
      (ratio_boundTop _ har _
        (ratio_boundLeft _ har _
          (ratio_enforceMin _ har ds mode _
            (ratio_rawAspect ds _ dx dy mode hmode)))))

/-- Witness for C3 (amended) at ratio `2`, a `se` drag with `dx = 1`. -/
theorem c3_aspect_ratio_exact_before_rounding_witness :
    hasAspectRatio ⟨10000, 10000, none, none, false, some 2⟩ = true ∧
    (computeResizedCrop ⟨10000, 10000, none, none, false, some 2⟩ ⟨0, 0, 0, 0, 32, 16⟩
        1 0 DragMode.se).h
      = (computeResizedCrop ⟨10000, 10000, none, none, false, some 2⟩ ⟨0, 0, 0, 0, 32, 16⟩
          1 0 DragMode.se).w
        / (⟨10000, 10000, none, none, false, some 2⟩ : CropperProps).aspectRatio.getD 0 :=
  ⟨by norm_num [hasAspectRatio, truthy],
   c3_aspect_ratio_exact_before_rounding ⟨10000, 10000, none, none, false, some 2⟩
     ⟨0, 0, 0, 0, 32, 16⟩ 1 0 DragMode.se (by norm_num [hasAspectRatio, truthy])
     (by decide)⟩

end Converter

namespace Converter

/-- C3 (counterexample): ratio `2`, valid snapshot `{0, 0, 32, 16}`, `se` drag
with `dx = 1, dy = 0`: the committed rectangle is `33 × 16`, whose ratio
`33/16 = 2.0625` is off by `1/16` — far beyond floating-point tolerance. -/
theorem c3_counterexample_commit_rounding :
    handlePointerMove ⟨10000, 10000, none, none, false, some 2⟩ 1 ⟨0, 0, 0, 0, 32, 16⟩
        DragMode.se 1 0 ⟨0, 0, 32, 16⟩ = ⟨0, 0, 33, 16⟩ ∧
    ¬(|(33 : ℚ) / 16 - 2| < 1/1000) := by
  constructor
  · have h1 : rawAspectResize ⟨0, 0, 0, 0, 32, 16⟩ 2 1 0 DragMode.se
        = ⟨0, 0, 65/2, 65/4⟩ := by
      norm_num [rawAspectResize]
    have h2 : enforceMin true 2 ⟨0, 0, 0, 0, 32, 16⟩ DragMode.se ⟨0, 0, 65/2, 65/4⟩
        = ⟨0, 0, 65/2, 65/4⟩ := by
      norm_num [enforceMin, MIN_CROP_SIZE]
    have h3 : boundLeft true 2 ⟨0, 0, 65/2, 65/4⟩ = ⟨0, 0, 65/2, 65/4⟩ := by
      norm_num [boundLeft]
    have h4 : boundTop true 2 ⟨0, 0, 65/2, 65/4⟩ = ⟨0, 0, 65/2, 65/4⟩ := by
      norm_num [boundTop]
    have h5 : boundRight 10000 true 2 ⟨0, 0, 65/2, 65/4⟩ = ⟨0, 0, 65/2, 65/4⟩ := by
      norm_num [boundRight]
    have h6 : boundBottom 10000 true 2 ⟨0, 0, 65/2, 65/4⟩ = ⟨0, 0, 65/2, 65/4⟩ := by
      norm_num [boundBottom]
    have hcrc : computeResizedCrop ⟨10000, 10000, none, none, false, some 2⟩
        ⟨0, 0, 0, 0, 32, 16⟩ 1 0 DragMode.se = ⟨0, 0, 65/2, 65/4⟩ := by
      unfold computeResizedCrop
      norm_num [hasAspectRatio, truthy]
      rw [h1, h2, h3, h4, h5, h6]
    unfold handlePointerMove
    norm_num [canResizeCorners]
    rw [hcrc]
    refine ⟨?_, ?_, ?_, ?_⟩
    · exact jround_eval (by norm_num) (by norm_num)
    · exact jround_eval (by norm_num) (by norm_num)
    · exact (jround_cast_eval _ 33 (by norm_num [MIN_CROP_SIZE, sup_eq_max, max_def])
        (by norm_num [MIN_CROP_SIZE, sup_eq_max, max_def])).trans (by norm_num)
    · exact (jround_cast_eval _ 16 (by norm_num [MIN_CROP_SIZE, sup_eq_max, max_def])
        (by norm_num [MIN_CROP_SIZE, sup_eq_max, max_def])).trans (by norm_num)
  · rw [show (33 : ℚ) / 16 - 2 = 1/16 by norm_num, abs_of_pos (by norm_num)]
    norm_num

/-- C1 (code bug): a reachable aspect-locked drag escapes the image bounds.
Image `1000 × 1000`, ratio `1/2`, valid ratio-true snapshot `{0, 0, 100, 200}`,
`ne` drag with `dx = -1000`: the min-size fix recomputes the height but leaves
the already-computed `newY = 2000` stale, and the bottom-edge clamp then
produces negative sizes floored to `16`, committing `{x: 0, y: 2000, w: 16,
h: 16}` with `y + h = 2016 > 1000 = imageHeight`. -/
theorem c1_boundary_invariant_violated :
    handlePointerMove ⟨1000, 1000, none, none, false, some (1/2)⟩ 1 ⟨0, 0, 0, 0, 100, 200⟩
        DragMode.ne (-1000) 0 ⟨0, 0, 100, 200⟩ = ⟨0, 2000, 16, 16⟩ ∧
    ¬((2000 : ℚ) + 16 ≤ 1000) := by
  constructor
  · have h1 : rawAspectResize ⟨0, 0, 0, 0, 100, 200⟩ (1/2) (-1000) 0 DragMode.ne
        = ⟨0, 2000, -900, -1800⟩ := by
      norm_num [rawAspectResize]
    have h2 : enforceMin true (1/2) ⟨0, 0, 0, 0, 100, 200⟩ DragMode.ne ⟨0, 2000, -900, -1800⟩
        = ⟨0, 2000, 16, 32⟩ := by
      norm_num [enforceMin, MIN_CROP_SIZE]
      exact ⟨by decide, by decide⟩
    have h3 : boundLeft true (1/2) ⟨0, 2000, 16, 32⟩ = ⟨0, 2000, 16, 32⟩ := by
      norm_num [boundLeft]
    have h4 : boundTop true (1/2) ⟨0, 2000, 16, 32⟩ = ⟨0, 2000, 16, 32⟩ := by
      norm_num [boundTop]
    have h5 : boundRight 1000 true (1/2) ⟨0, 2000, 16, 32⟩ = ⟨0, 2000, 16, 32⟩ := by
      norm_num [boundRight]
    have h6 : boundBottom 1000 true (1/2) ⟨0, 2000, 16, 32⟩ = ⟨0, 2000, -500, -1000⟩ := by
      norm_num [boundBottom]
    have hcrc : computeResizedCrop ⟨1000, 1000, none, none, false, some (1/2)⟩
        ⟨0, 0, 0, 0, 100, 200⟩ (-1000) 0 DragMode.ne = ⟨0, 2000, -500, -1000⟩ := by
      unfold computeResizedCrop
      norm_num [hasAspectRatio, truthy]
      rw [h1, h2, h3, h4, h5, h6]
    unfold handlePointerMove
    norm_num [canResizeCorners]
    rw [hcrc]
    refine ⟨?_, ?_, ?_, ?_⟩
    · exact jround_eval (by norm_num) (by norm_num)
    · exact (jround_cast_eval _ 2000 (by norm_num) (by norm_num)).trans (by norm_num)
    · exact (jround_cast_eval _ 16 (by norm_num [MIN_CROP_SIZE, sup_eq_max, max_def])
        (by norm_num [MIN_CROP_SIZE, sup_eq_max, max_def])).trans (by norm_num)
    · exact (jround_cast_eval _ 16 (by norm_num [MIN_CROP_SIZE, sup_eq_max, max_def])
        (by norm_num [MIN_CROP_SIZE, sup_eq_max, max_def])).trans (by norm_num)
  · norm_num

end Converter
